import Mathlib

/-!
Shallow embedding of `spotify_skip_recently_played_song.py` (the auto-skipper):
token manager, Last.fm history client, current-track parsing, remote-control
gate, pattern detector, and one iteration of the decision loop (`main_loop`),
together with theorems settling the specification claims.

Timestamps are modelled as `Int` epoch seconds.  A Python `datetime` value is
modelled as `PyDatetime`: its epoch instant plus whether it carries timezone
information (`datetime.fromtimestamp(_, tz=timezone.utc)` is aware,
`datetime.utcfromtimestamp` is naive).  Network interactions are modelled by
passing the response (or a transport-failure marker) as an explicit argument.
-/

namespace AutoSkipper

/-- Python truthiness of a string: non-empty strings are truthy. -/
def pyTruthyStr (s : String) : Bool := !(s == "")

/-- Python truthiness of an optional string: `None` and `""` are falsy. -/
def pyTruthyOpt : Option String → Bool
  | none => false
  | some s => pyTruthyStr s

/-- A Python `datetime` value: the UTC instant in epoch seconds, and whether
the object is timezone-aware (`tzinfo` present). -/
structure PyDatetime where
  epoch : Int
  aware : Bool
deriving DecidableEq

/-! ## Token manager (`refresh_access_token`, `get_spotify_token`) -/

/-- The module-level token cache: `SPOTIFY_TOKEN` and `TOKEN_EXPIRES_AT`. -/
structure TokenState where
  token : Option String
  expiresAt : Int
deriving DecidableEq

/-- A successful token-endpoint response body: the `access_token` field and
the optional `expires_in` field (`data.get("expires_in", 3600)`). -/
structure RefreshResp where
  accessToken : String
  expiresIn : Option Int

/-- `refresh_access_token` (lines 267-312), success path: store the new
access token and set `TOKEN_EXPIRES_AT = now + max(0, expires_in - 100)`. -/
def refresh_access_token (now : Int) (resp : RefreshResp) : TokenState :=
  { token := some resp.accessToken
    expiresAt := now + max 0 (resp.expiresIn.getD 3600 - 100) }

/-- `get_spotify_token` (lines 315-324): refresh when no token is cached or
`now >= TOKEN_EXPIRES_AT`, else return the cached token.  The `Bool` records
whether a refresh exchange was performed in this call. -/
def get_spotify_token (now : Int) (resp : RefreshResp) (st : TokenState) :
    TokenState × String × Bool :=
  if st.token = none ∨ now ≥ st.expiresAt then
    (refresh_access_token now resp, resp.accessToken, true)
  else
    (st, st.token.getD "", false)

/-! ## History client (`get_last_play_date`, lines 486-546) -/

/-- The `date.uts` field of a scrobble record, when present and truthy:
either a string `int()` accepts, or a malformed one (raises `ValueError`). -/
inductive UtsField where
  | valid (n : Int)
  | malformed
deriving DecidableEq

/-- One scrobble record: `none` models a missing or empty `date.uts`. -/
structure ScrobbleItem where
  uts : Option UtsField
deriving DecidableEq

/-- The `trackscrobbles.track` field: missing/empty (falsy), a list, or a
single object. -/
inductive Scrobbles where
  | absent
  | list (items : List ScrobbleItem)
  | single (item : ScrobbleItem)
deriving DecidableEq

/-- A Last.fm interaction outcome: transport failure (`requests`
exception) or an HTTP response with status and parsed body. -/
inductive LfmResp where
  | networkError
  | http (status : Int) (scrobbles : Scrobbles)
deriving DecidableEq

/-- `get_last_play_date`: network error → `None`; non-200 → `None`; empty
structure → `None`; list shape → timezone-aware
`datetime.fromtimestamp(int(uts), tz=timezone.utc)`; single-object shape →
naive `datetime.utcfromtimestamp(int(uts))`; malformed or missing `uts` →
`None`. -/
def get_last_play_date : LfmResp → Option PyDatetime
  | .networkError => none
  | .http status scr =>
    if status ≠ 200 then none
    else
      match scr with
      | .absent => none
      | .list [] => none
      | .list (latest :: _) =>
        match latest.uts with
        | some (.valid n) => some ⟨n, true⟩
        | some .malformed => none
        | none => none
      | .single item =>
        match item.uts with
        | some (.valid n) => some ⟨n, false⟩
        | some .malformed => none
        | none => none

/-! ## Playback client: current track (`get_current_track`, lines 373-408) -/

/-- The `item` object of a currently-playing response: the artist objects'
`name` fields, the track `name`, and the track `id` (each possibly null). -/
structure CurItem where
  artists : List (Option String)
  name : Option String
  id : Option String

/-- A parsed current track as returned by `get_current_track`. -/
structure Track where
  id : String
  name : String
  artist : String
deriving DecidableEq

/-- `get_current_track`: 204 → nothing playing; non-200 → `None`; missing
item → `None`; returns the dict only when id, first-artist name and track
name are all truthy. -/
def get_current_track (status : Int) (item : Option CurItem) : Option Track :=
  if status = 204 then none
  else if status ≠ 200 then none
  else
    match item with
    | none => none
    | some it =>
      let artist_name : Option String :=
        match it.artists with
        | [] => none
        | a :: _ => a
      if pyTruthyOpt it.id && pyTruthyOpt artist_name && pyTruthyOpt it.name then
        some { id := it.id.getD "", name := it.name.getD "", artist := artist_name.getD "" }
      else none

/-- The validity re-check applied in `main_loop` (lines 584 and 590):
the failure branch is taken iff artist or id is falsy. -/
def validTrack (t : Track) : Bool := pyTruthyStr t.artist && pyTruthyStr t.id

/-! ## Pattern detector (`main_loop` lines 636-648) -/

/-- Python `max` over a non-empty list (junk value 0 on `[]`). -/
def listMax : List Int → Int
  | [] => 0
  | x :: xs => xs.foldl max x

/-- Python `min` over a non-empty list (junk value 0 on `[]`). -/
def listMin : List Int → Int
  | [] => 0
  | x :: xs => xs.foldl min x

/-- Append the newest days-since value, then
`if len(recent_skip_days) > RESTART_PATTERN_SONG_COUNT: pop(0)`. -/
def trimLedger (n : Nat) (ledger : List Int) (d : Int) : List Int :=
  let l2 := ledger ++ [d]
  if n < l2.length then l2.tail else l2

/-- The detection condition (lines 642-645):
`len(recent_skip_days) == N and max(...) - min(...) <= tolerance`. -/
def patternFires (n : Nat) (tol : Int) (l : List Int) : Bool :=
  l.length = n && listMax l - listMin l ≤ tol

/-- One skip recorded in the ledger: push/evict, test, and clear on fire.
Returns the new ledger and whether the restart pattern fired. -/
def recordSkip (n : Nat) (tol : Int) (ledger : List Int) (d : Int) :
    List Int × Bool :=
  let l2 := trimLedger n ledger d
  if patternFires n tol l2 then ([], true) else (l2, false)

/-- Record a whole sequence of skips; the `Bool` reports whether the pattern
fired at any point. -/
def runRecord (n : Nat) (tol : Int) : List Int → List Int → List Int × Bool
  | ledger, [] => (ledger, false)
  | ledger, d :: ds =>
    let r := recordSkip n tol ledger d
    let rest := runRecord n tol r.1 ds
    (rest.1, r.2 || rest.2)

/-! ## Decision loop: one iteration of `main_loop` (lines 567-670) -/

/-- Configuration tunables read from `config.ini`. -/
structure Config where
  skipWindowDays : Int
  pollIntervalSeconds : Int
  enableRestartPattern : Bool
  restartPatternSongCount : Nat
  restartPatternDayDiff : Int

/-- Mutable state the loop carries across iterations. -/
structure LoopState where
  lastCheckedTrackId : Option String
  lastCheckedTimestamp : Option Int
  tempPauseTrackId : Option String
  recentSkipDays : List Int
deriving DecidableEq

/-- Environment observed during one iteration: the tray pause flag, the
remote-gate verdict, the current-track poll result, the Last.fm lookup
result, the observed pause state, and the current time. -/
structure IterInput where
  skippingPaused : Bool
  remoteEnabled : Bool
  currentTrack : Option Track
  lookup : Option PyDatetime
  isPaused : Bool
  now : Int

/-- Externally visible commands issued during one iteration. -/
structure IterEffects where
  historyLookup : Bool
  skipIssued : Bool
  pauseIssued : Bool
  restartIssued : Bool
deriving DecidableEq

/-- No commands issued. -/
def noEffects : IterEffects :=
  { historyLookup := false, skipIssued := false
    pauseIssued := false, restartIssued := false }

/-- How the iteration body ends: `sleepFull` models the
`time.sleep(POLL_INTERVAL_SECONDS); continue` branches, `shortSleep` the
post-skip `time.sleep(5); continue`, `fallthrough` reaching the standard
sleep at line 670, and `raised` an exception escaping to the boundary. -/
inductive IterExit where
  | sleepFull
  | shortSleep
  | fallthrough
  | raised
deriving DecidableEq

/-- Result of one iteration body. -/
structure IterResult where
  state : LoopState
  eff : IterEffects
  exit : IterExit
deriving DecidableEq

/-- The skip-window test (lines 626-627):
`cutoff = now - timedelta(days=SKIP_WINDOW_DAYS)`, skip iff
`last_played > cutoff`. -/
def skipDecision (now windowDays lastPlayed : Int) : Bool :=
  lastPlayed > now - windowDays * 86400

/-- One iteration of the `try:` body of `main_loop` (lines 569-657).
The duplicated validity check at line 590 is kept (it is unreachable, the
line-584 check already handled it).  A naive (non-aware) lookup result makes
`datetime.now(timezone.utc) - last_played` (line 621) raise `TypeError`,
modelled by the `raised` exit. -/
def loopIter (cfg : Config) (inp : IterInput) (st : LoopState) : IterResult :=
  if inp.skippingPaused then ⟨st, noEffects, .sleepFull⟩
  else if !inp.remoteEnabled then ⟨st, noEffects, .sleepFull⟩
  else
    match inp.currentTrack with
    | none => ⟨st, noEffects, .sleepFull⟩
    | some track =>
      if !(validTrack track) then ⟨st, noEffects, .sleepFull⟩
      else if !(validTrack track) then ⟨st, noEffects, .sleepFull⟩
      else if some track.id = st.lastCheckedTrackId then ⟨st, noEffects, .sleepFull⟩
      else
        let st1 : LoopState :=
          { st with lastCheckedTrackId := some track.id
                    lastCheckedTimestamp := some inp.now }
        let st2 : LoopState :=
          { st1 with tempPauseTrackId :=
              match st1.tempPauseTrackId with
              | some p => if p ≠ track.id then none else some p
              | none => none }
        if st2.tempPauseTrackId = some track.id then ⟨st2, noEffects, .sleepFull⟩
        else
          let effL : IterEffects := { noEffects with historyLookup := true }
          match inp.lookup with
          | none => ⟨st2, effL, .fallthrough⟩
          | some lp =>
            if lp.aware = false then ⟨st2, effL, .raised⟩
            else
              let days_since : Int := Int.fdiv (inp.now - lp.epoch) 86400
              if skipDecision inp.now cfg.skipWindowDays lp.epoch then
                let effS : IterEffects :=
                  { effL with skipIssued := true, pauseIssued := inp.isPaused }
                if cfg.enableRestartPattern then
                  let r := recordSkip cfg.restartPatternSongCount
                             cfg.restartPatternDayDiff st2.recentSkipDays days_since
                  ⟨{ st2 with recentSkipDays := r.1 },
                   { effS with restartIssued := r.2 }, .shortSleep⟩
                else ⟨st2, effS, .shortSleep⟩
              else ⟨st2, effL, .fallthrough⟩

/-! ## Remote control gate (`is_skipping_enabled`, lines 469-480) -/

/-- Whitespace recognized by the model of Python `str.strip` (space, tab,
carriage return, line feed; the response bodies of interest are ASCII). -/
def pyIsSpace (c : Char) : Bool := c = ' ' || c = '\t' || c = '\r' || c = '\n'

/-- Python `str.lower` on one ASCII character. -/
def pyLowerChar (c : Char) : Char :=
  if 'A' ≤ c ∧ c ≤ 'Z' then Char.ofNat (c.toNat + 32) else c

/-- Python `str.lower`, character-wise. -/
def pyLower (l : List Char) : List Char := l.map pyLowerChar

/-- Remove leading whitespace (the left half of Python `str.strip`). -/
def stripLeft (l : List Char) : List Char := l.dropWhile pyIsSpace

/-- Remove trailing whitespace (the right half of Python `str.strip`). -/
def stripRight : List Char → List Char
  | [] => []
  | c :: r =>
    let t := stripRight r
    if t.isEmpty then (if pyIsSpace c then [] else [c]) else c :: t

/-- Python `str.strip`: remove leading and trailing whitespace. -/
def pyStrip (l : List Char) : List Char := stripRight (stripLeft l)

/-- Python `str.splitlines` over the LF / CR / CRLF line boundaries (no
trailing empty line for a trailing newline). -/
def pySplitlines : List Char → List (List Char)
  | [] => []
  | c :: rest =>
    if c = '\r' then
      match rest with
      | d :: rest2 =>
        if d = '\n' then [] :: pySplitlines rest2 else [] :: pySplitlines (d :: rest2)
      | [] => [[]]
    else if c = '\n' then [] :: pySplitlines rest
    else
      match pySplitlines rest with
      | [] => [[c]]
      | l :: ls => (c :: l) :: ls

/-- The only body content that reports the gate as on. -/
def onChars : List Char := ['o', 'n']

/-- `is_skipping_enabled`: no URL configured → enabled; request failure →
enabled (exception caught); whitespace-only body → `strip().splitlines()[0]`
raises `IndexError`, caught → enabled; otherwise evaluate
`r.text.strip().splitlines()[0].strip().lower() == "on"`. -/
def is_skipping_enabled (urlSet : Bool) (resp : Option (List Char)) : Bool :=
  if !urlSet then true
  else
    match resp with
    | none => true
    | some text =>
      match pySplitlines (pyStrip text) with
      | [] => true
      | line :: _ => pyLower (pyStrip line) == onChars

/-- Modelled from the spec sentence of C7, literally: permit iff the first
non-empty line of the response body, lowercased, equals `on`; a request
failure, or a body with no non-empty line, is treated as enabled. -/
def specGatePermits (urlSet : Bool) (resp : Option (List Char)) : Bool :=
  if !urlSet then true
  else
    match resp with
    | none => true
    | some text =>
      match (pySplitlines text).filter (fun l => !l.isEmpty) with
      | [] => true
      | line :: _ => pyLower line == onChars

/-- A line containing at least one non-whitespace character. -/
def nonBlank (l : List Char) : Bool := l.any (fun c => !pyIsSpace c)

/-- Modelled from the spec as amended: permit iff the first line of the body
containing non-whitespace content, stripped of surrounding whitespace and
lowercased, equals `on`; a request failure or a whitespace-only body is
treated as enabled. -/
def gateSpecStripped (urlSet : Bool) (resp : Option (List Char)) : Bool :=
  if !urlSet then true
  else
    match resp with
    | none => true
    | some text =>
      match (pySplitlines text).filter nonBlank with
      | [] => true
      | line :: _ => pyLower (pyStrip line) == onChars

/-! ## Exception boundary of `main_loop` (lines 660-670) -/

/-- What the `while True:` body produced: a completed `try:` body with its
exit, or one of the two caught exception classes at the boundary. -/
inductive LoopEvent where
  | body (e : IterExit)
  | keyboardInterrupt
deriving DecidableEq

/-- Boundary outcome: total seconds slept before the next iteration,
whether the loop continues, and whether the boundary logged an error. -/
structure BoundaryResult where
  sleepSeconds : Int
  continues : Bool
  loggedError : Bool
deriving DecidableEq

/-- The outer boundary: `continue` branches slept the full interval inside;
the post-skip branch slept 5 seconds; a fallthrough reaches the standard
sleep at line 670; an unexpected exception sleeps at line 667 and then also
reaches the line-670 sleep (the handler does not `continue`); a
`KeyboardInterrupt` breaks the loop. -/
def boundaryStep (pollInterval : Int) : LoopEvent → BoundaryResult
  | .body .sleepFull => ⟨pollInterval, true, false⟩
  | .body .shortSleep => ⟨5, true, false⟩
  | .body .fallthrough => ⟨pollInterval, true, false⟩
  | .body .raised => ⟨pollInterval + pollInterval, true, true⟩
  | .keyboardInterrupt => ⟨0, false, false⟩

end AutoSkipper

namespace AutoSkipper

/-- After the clear-on-change update (lines 605-607), the temporary pause
mark cannot match the new track id when it did not match it before. -/
theorem tempPause_update_ne (st : LoopState) (tid : String)
    (h : st.tempPauseTrackId ≠ some tid) :
    (match st.tempPauseTrackId with
      | some p => if p ≠ tid then none else some p
      | none => none) ≠ some tid := by
  rcases hc : st.tempPauseTrackId with _ | p
  · simp
  · have hpn : p ≠ tid := by
      intro hh
      exact h (by rw [hc, hh])
    simp [hpn]

theorem c5_dedup_noop (cfg : Config) (inp : IterInput) (st : LoopState)
    (t : Track)
    (hp : inp.skippingPaused = false) (hr : inp.remoteEnabled = true)
    (ht : inp.currentTrack = some t) (hv : validTrack t = true)
    (hsame : st.lastCheckedTrackId = some t.id) :
    loopIter cfg inp st = ⟨st, noEffects, .sleepFull⟩ := by
  unfold loopIter
  rw [ht]
  simp [hp, hr, hv, hsame]

theorem c8_repause_iff_observed_paused (cfg : Config) (inp : IterInput)
    (st : LoopState) (t : Track) (lp : Int)
    (hp : inp.skippingPaused = false) (hr : inp.remoteEnabled = true)
    (ht : inp.currentTrack = some t) (hv : validTrack t = true)
    (hnew : some t.id ≠ st.lastCheckedTrackId)
    (htp : st.tempPauseTrackId ≠ some t.id)
    (hl : inp.lookup = some ⟨lp, true⟩)
    (hwin : inp.now - lp < cfg.skipWindowDays * 86400) :
    (loopIter cfg inp st).eff.skipIssued = true ∧
    (loopIter cfg inp st).eff.pauseIssued = inp.isPaused := by
  have htp2 := tempPause_update_ne st t.id htp
  have hsd : skipDecision inp.now cfg.skipWindowDays lp = true := by
    simp only [skipDecision, decide_eq_true_eq]
    omega
  unfold loopIter
  rw [ht]
  simp only [hp, hr, hv, hl, Bool.not_true, Bool.not_false, if_false, if_true,
    Bool.false_eq_true, reduceIte]
  rw [if_neg hnew]
  simp only [htp2, reduceIte, hsd]
  by_cases he : cfg.enableRestartPattern <;> simp [he]

theorem c2_absent_never_skips :
    (∀ (cfg : Config) (inp : IterInput) (st : LoopState),
        inp.lookup = none → (loopIter cfg inp st).eff.skipIssued = false)
    ∧ get_last_play_date .networkError = none
    ∧ (∀ (s : Int) (scr : Scrobbles), s ≠ 200 →
        get_last_play_date (.http s scr) = none)
    ∧ get_last_play_date (.http 200 .absent) = none
    ∧ get_last_play_date (.http 200 (.list [])) = none
    ∧ (∀ rest, get_last_play_date (.http 200 (.list (⟨some .malformed⟩ :: rest))) = none)
    ∧ get_last_play_date (.http 200 (.single ⟨some .malformed⟩)) = none := by
  refine ⟨?_, rfl, ?_, rfl, rfl, fun rest => rfl, rfl⟩
  · intro cfg inp st h
    unfold loopIter
    repeat' split
    all_goals try simp_all [noEffects]
    all_goals (split <;> simp_all [noEffects])
  · intro s scr h
    simp only [get_last_play_date]
    rw [if_pos h]

end AutoSkipper

namespace AutoSkipper

theorem c3_token_manager :
    (∀ (st : TokenState) (now : Int) (resp : RefreshResp) (t : String),
        st.token = some t → now < st.expiresAt →
        get_spotify_token now resp st = (st, t, false))
    ∧ (∀ (st : TokenState) (now : Int) (resp : RefreshResp),
        (st.token = none ∨ now ≥ st.expiresAt) →
        (get_spotify_token now resp st).2.2 = true)
    ∧ (∀ (st : TokenState) (now1 now2 : Int) (resp1 resp2 : RefreshResp),
        now2 < (get_spotify_token now1 resp1 st).1.expiresAt →
        (get_spotify_token now2 resp2 ((get_spotify_token now1 resp1 st).1)).2.2
          = false) := by
  refine ⟨?_, ?_, ?_⟩
  · intro st now resp t h1 h2
    unfold get_spotify_token
    rw [if_neg]
    · simp [h1]
    · rintro (hc | hc)
      · rw [h1] at hc
        exact Option.some_ne_none t hc
      · omega
  · intro st now resp h
    unfold get_spotify_token
    rw [if_pos h]
  · intro st now1 now2 resp1 resp2 h
    by_cases hc : st.token = none ∨ now1 ≥ st.expiresAt
    · rw [show get_spotify_token now1 resp1 st =
          (refresh_access_token now1 resp1, resp1.accessToken, true) from by
            unfold get_spotify_token
            rw [if_pos hc]] at h ⊢
      unfold get_spotify_token
      rw [if_neg]
      rintro (hd | hd)
      · exact Option.some_ne_none _ hd
      · exact absurd h (by omega)
    · rw [show get_spotify_token now1 resp1 st = (st, st.token.getD "", false) from by
          unfold get_spotify_token
          rw [if_neg hc]] at h ⊢
      push_neg at hc
      unfold get_spotify_token
      rw [if_neg]
      rintro (hd | hd)
      · exact hc.1 hd
      · exact absurd h (by omega)

/-- Appending while strictly below capacity never evicts. -/
theorem trimLedger_of_le {n : Nat} {l : List Int} {d : Int}
    (h : l.length + 1 ≤ n) : trimLedger n l d = l ++ [d] := by
  unfold trimLedger
  rw [if_neg]
  simp only [List.length_append, List.length_cons, List.length_nil]
  omega

/-- The detection condition, as a proposition. -/
theorem patternFires_iff {n : Nat} {tol : Int} {l : List Int} :
    patternFires n tol l = true ↔
      (l.length = n ∧ listMax l - listMin l ≤ tol) := by
  simp [patternFires]

theorem patternFires_ne_length {n : Nat} {tol : Int} {l : List Int}
    (h : l.length ≠ n) : patternFires n tol l = false := by
  rw [← Bool.not_eq_true, patternFires_iff]
  exact fun hc => h hc.1

theorem patternFires_spread {n : Nat} {tol : Int} {l : List Int}
    (h : tol < listMax l - listMin l) : patternFires n tol l = false := by
  rw [← Bool.not_eq_true, patternFires_iff]
  exact fun hc => absurd hc.2 (by omega)

theorem recordSkip_snd (n : Nat) (tol : Int) (l : List Int) (d : Int) :
    (recordSkip n tol l d).2 = patternFires n tol (trimLedger n l d) := by
  by_cases hf : patternFires n tol (trimLedger n l d) <;> simp [recordSkip, hf]

theorem recordSkip_fst_of_fires {n : Nat} {tol : Int} {l : List Int} {d : Int}
    (h : (recordSkip n tol l d).2 = true) : (recordSkip n tol l d).1 = [] := by
  by_cases hf : patternFires n tol (trimLedger n l d) <;> simp [recordSkip, hf] at h ⊢

/-- Recording strictly fewer values than the remaining capacity never fires
and just appends. -/
theorem runRecord_below_capacity (n : Nat) (tol : Int) :
    ∀ (ds l : List Int), l.length + ds.length < n →
      runRecord n tol l ds = (l ++ ds, false) := by
  intro ds
  induction ds with
  | nil =>
    intro l h
    simp [runRecord]
  | cons d ds ih =>
    intro l h
    simp only [List.length_cons] at h
    have h1 : trimLedger n l d = l ++ [d] := trimLedger_of_le (by omega)
    have h2 : patternFires n tol (l ++ [d]) = false :=
      patternFires_ne_length (by simp; omega)
    unfold runRecord
    simp only [recordSkip, h1, h2, Bool.false_eq_true, reduceIte]
    rw [ih (l ++ [d]) (by simp; omega)]
    simp

/-- Feeding values whose overall spread exceeds the tolerance never fires,
when they exactly fill the remaining capacity. -/
theorem runRecord_spread_nofire (n : Nat) (tol : Int) :
    ∀ (ds l : List Int), l.length + ds.length = n →
      tol < listMax (l ++ ds) - listMin (l ++ ds) →
      (runRecord n tol l ds).2 = false := by
  intro ds
  induction ds with
  | nil =>
    intro l h hs
    simp [runRecord]
  | cons d ds ih =>
    intro l h hs
    simp only [List.length_cons] at h
    have h1 : trimLedger n l d = l ++ [d] := trimLedger_of_le (by omega)
    rcases ds with _ | ⟨d2, ds2⟩
    · have h2 : patternFires n tol (l ++ [d]) = false := by
        apply patternFires_spread
        simpa using hs
      unfold runRecord
      simp only [recordSkip, h1, h2, Bool.false_eq_true, reduceIte]
      simp [runRecord]
    · have h2 : patternFires n tol (l ++ [d]) = false :=
        patternFires_ne_length (by simp at h ⊢; omega)
      unfold runRecord
      simp only [recordSkip, h1, h2, Bool.false_eq_true, reduceIte]
      have h3 := ih (l ++ [d]) (by simp at h ⊢; omega)
        (by rw [List.append_assoc]; simpa using hs)
      simp only [h3, Bool.false_or]

theorem c4_pattern_detector (n : Nat) (tol : Int) (hn : 2 ≤ n) :
    (∀ (l : List Int) (d : Int), (recordSkip n tol l d).2 = true ↔
        ((trimLedger n l d).length = n ∧
          listMax (trimLedger n l d) - listMin (trimLedger n l d) ≤ tol))
    ∧ (∀ (l : List Int) (d : Int), (recordSkip n tol l d).2 = true →
        (recordSkip n tol l d).1 = [])
    ∧ (∀ ds : List Int, ds.length < n → (runRecord n tol [] ds).2 = false)
    ∧ (∀ ds : List Int, ds.length = n → tol < listMax ds - listMin ds →
        (runRecord n tol [] ds).2 = false)
    ∧ (∀ (l : List Int) (d d2 : Int), (recordSkip n tol l d).2 = true →
        (recordSkip n tol (recordSkip n tol l d).1 d2).2 = false) := by
  refine ⟨?_, ?_, ?_, ?_, ?_⟩
  · intro l d
    rw [recordSkip_snd, patternFires_iff]
  · intro l d h
    exact recordSkip_fst_of_fires h
  · intro ds h
    rw [runRecord_below_capacity n tol ds [] (by simpa using h)]
  · intro ds h hs
    exact runRecord_spread_nofire n tol ds [] (by simpa using h) (by simpa using hs)
  · intro l d d2 h
    rw [recordSkip_fst_of_fires h, recordSkip_snd]
    have h1 : trimLedger n [] d2 = [d2] := trimLedger_of_le (by simp; omega)
    rw [h1]
    exact patternFires_ne_length (by simp; omega)

end AutoSkipper

namespace AutoSkipper

/-- C6 counterexample: with the default 120-second poll interval, an
unexpected exception makes the boundary sleep 240 seconds (the handler sleep
at line 667 plus the standard end-of-cycle sleep at line 670), not the
claimed single full interval. -/
theorem c6_counterexample :
    (boundaryStep 120 (.body .raised)).sleepSeconds = 240 ∧
    ¬ (boundaryStep 120 (.body .raised)).sleepSeconds = 120 := by decide

/-- C6 (amended): an unexpected exception is logged, the boundary sleeps two
full poll intervals, and the loop continues; only `KeyboardInterrupt`
terminates the loop, without sleeping. -/
theorem c6_amended_boundary (pollInterval : Int) :
    boundaryStep pollInterval (.body .raised) =
      ⟨pollInterval + pollInterval, true, true⟩ ∧
    boundaryStep pollInterval .keyboardInterrupt = ⟨0, false, false⟩ :=
  ⟨rfl, rfl⟩

/-- C9: for the same `uts` value, the list-shape branch returns a
timezone-aware value while the single-object branch returns a naive one;
the two results differ, and feeding the naive result into the decision
loop's window comparison raises (`aware - naive` subtraction), so the two
response shapes are not normalized identically. -/
theorem c9_shape_divergence :
    get_last_play_date (.http 200 (.list [⟨some (.valid 1000000000)⟩])) =
      some ⟨1000000000, true⟩ ∧
    get_last_play_date (.http 200 (.single ⟨some (.valid 1000000000)⟩)) =
      some ⟨1000000000, false⟩ ∧
    get_last_play_date (.http 200 (.list [⟨some (.valid 1000000000)⟩])) ≠
      get_last_play_date (.http 200 (.single ⟨some (.valid 1000000000)⟩)) ∧
    (loopIter ⟨60, 120, true, 5, 2⟩
      ⟨false, true, some ⟨"t1", "Song", "Artist"⟩,
        get_last_play_date (.http 200 (.single ⟨some (.valid 1000000000)⟩)),
        false, 1700000000⟩
      ⟨none, none, none, []⟩).exit = .raised := by decide

/-- A truthy optional string holds a non-empty string. -/
theorem pyTruthyOpt_getD {o : Option String} (h : pyTruthyOpt o = true) :
    o.getD "" ≠ "" := by
  rcases o with _ | s
  · simp [pyTruthyOpt] at h
  · simp only [pyTruthyOpt, pyTruthyStr, Bool.not_eq_true', beq_eq_false_iff_ne] at h
    simpa using h

theorem c10_current_track_valid (status : Int) (item : Option CurItem)
    (t : Track) (h : get_current_track status item = some t) :
    t.id ≠ "" ∧ t.name ≠ "" ∧ t.artist ≠ "" ∧ validTrack t = true := by
  unfold get_current_track at h
  split at h
  · exact absurd h (by simp)
  · split at h
    · exact absurd h (by simp)
    · rcases item with _ | it
      · exact absurd h (by simp)
      · dsimp only at h
        by_cases hc : (pyTruthyOpt it.id &&
            pyTruthyOpt (match it.artists with | [] => none | a :: _ => a) &&
            pyTruthyOpt it.name) = true
        · rw [if_pos hc] at h
          simp only [Bool.and_eq_true] at hc
          obtain ⟨⟨hid, hart⟩, hname⟩ := hc
          obtain rfl : t = _ := (Option.some.injEq _ _ ▸ h).symm
          refine ⟨pyTruthyOpt_getD hid, pyTruthyOpt_getD hname,
            pyTruthyOpt_getD hart, ?_⟩
          simp only [validTrack, pyTruthyStr, Bool.and_eq_true,
            Bool.not_eq_true', beq_eq_false_iff_ne]
          exact ⟨by simpa using pyTruthyOpt_getD hart,
            by simpa using pyTruthyOpt_getD hid⟩
        · rw [if_neg hc] at h
          exact absurd h (by simp)

end AutoSkipper


namespace AutoSkipper

/-- C7 counterexample: for the body "on \nx" the first non-empty line is
"on " (with a trailing space), whose lowercasing is not "on", so the claim
as stated reports the gate disabled; the code strips the line and permits. -/
theorem c7_counterexample :
    is_skipping_enabled true (some ['o', 'n', ' ', '\n', 'x']) = true ∧
    specGatePermits true (some ['o', 'n', ' ', '\n', 'x']) = false := by decide

end AutoSkipper

namespace AutoSkipper

/-- A line produced by the splitter from a cons is itself a cons. -/
theorem pySplitlines_ne_nil (c : Char) (r : List Char) :
    pySplitlines (c :: r) ≠ [] := by
  unfold pySplitlines
  by_cases h1 : c = '\r'
  · simp only [h1, reduceIte]
    rcases r with _ | ⟨d, r2⟩
    · simp
    · by_cases h2 : d = '\n' <;> simp [h2]
  · by_cases h2 : c = '\n'
    · simp [h1, h2]
    · simp only [h1, h2, reduceIte]
      rcases hs : pySplitlines r with _ | ⟨l, ls⟩ <;> simp

/-- The first line after a leading carriage return is empty. -/
theorem pySplitlines_cr_head (xs : List Char) :
    (pySplitlines ('\r' :: xs)).head?.getD [] = [] := by
  unfold pySplitlines
  rcases xs with _ | ⟨d, r2⟩
  · simp
  · by_cases h2 : d = '\n' <;> simp [h2]

/-- The first line after a leading line feed is empty. -/
theorem pySplitlines_lf_head (xs : List Char) :
    (pySplitlines ('\n' :: xs)).head?.getD [] = [] := by
  unfold pySplitlines
  simp

/-- Unfolding lemma for `stripRight` on a cons. -/
theorem stripRight_cons (c : Char) (r : List Char) :
    stripRight (c :: r) =
      if (stripRight r).isEmpty then (if pyIsSpace c then [] else [c])
      else c :: stripRight r := rfl

/-- `stripRight` erases the whole list exactly when it is all whitespace. -/
theorem stripRight_eq_nil_iff (l : List Char) :
    stripRight l = [] ↔ l.all pyIsSpace = true := by
  induction l with
  | nil => simp [stripRight]
  | cons c r ih =>
    rw [stripRight_cons]
    rcases hr : stripRight r with _ | ⟨x, t⟩
    · by_cases hc : pyIsSpace c <;> simp_all
    · simp only [List.isEmpty_cons, Bool.false_eq_true, reduceIte]
      simp_all

/-- `stripRight` keeps the first element when the result is non-empty. -/
theorem stripRight_head {l : List Char} (h : stripRight l ≠ []) :
    (stripRight l).head? = l.head? := by
  rcases l with _ | ⟨c, r⟩
  · simp [stripRight] at h
  · rw [stripRight_cons] at h ⊢
    rcases hr : stripRight r with _ | ⟨x, t⟩
    · simp only [hr, List.isEmpty_nil, reduceIte] at h ⊢
      by_cases hc : pyIsSpace c <;> simp_all
    · simp

/-- Removing leading whitespace twice is the same as doing it once. -/
theorem stripLeft_idem (l : List Char) :
    stripLeft (stripLeft l) = stripLeft l := by
  induction l with
  | nil => rfl
  | cons c r ih =>
    by_cases hc : pyIsSpace c
    · simp [stripLeft, List.dropWhile_cons, hc] at ih ⊢
      exact ih
    · simp [stripLeft, List.dropWhile_cons, hc]

/-- Removing the leading whitespace run does not change all-whitespaceness. -/
theorem all_space_stripLeft (l : List Char) :
    (stripLeft l).all pyIsSpace = l.all pyIsSpace := by
  induction l with
  | nil => rfl
  | cons c r ih =>
    by_cases hc : pyIsSpace c
    · simp [stripLeft, List.dropWhile_cons, hc] at ih ⊢
      rw [ih]
    · simp [stripLeft, List.dropWhile_cons, hc]

/-- The two halves of `strip` commute. -/
theorem stripRight_stripLeft_comm (l : List Char) :
    stripRight (stripLeft l) = stripLeft (stripRight l) := by
  induction l with
  | nil => rfl
  | cons c r ih =>
    by_cases hc : pyIsSpace c
    · have h1 : stripLeft (c :: r) = stripLeft r := by
        simp [stripLeft, List.dropWhile_cons, hc]
      rw [h1, ih, stripRight_cons]
      rcases hr : stripRight r with _ | ⟨y, u⟩
      · simp [hc, hr]
      · simp [hc, hr, stripLeft, List.dropWhile_cons]
    · have h1 : stripLeft (c :: r) = c :: r := by
        simp [stripLeft, List.dropWhile_cons, hc]
      rw [h1, stripRight_cons]
      rcases hr : stripRight r with _ | ⟨y, u⟩
      · simp [hc, hr, stripLeft, List.dropWhile_cons]
      · simp [hc, hr, stripLeft, List.dropWhile_cons]

/-- `strip` of a whitespace-fronted list drops the leading character. -/
theorem pyStrip_cons_space {c : Char} (l : List Char) (hc : pyIsSpace c = true) :
    pyStrip (c :: l) = pyStrip l := by
  unfold pyStrip
  rw [show stripLeft (c :: l) = stripLeft l from by
    simp [stripLeft, List.dropWhile_cons, hc]]

/-- Lists with equal right-stripped forms have equal stripped forms. -/
theorem pyStrip_eq_of_stripRight_eq {a b : List Char}
    (h : stripRight a = stripRight b) : pyStrip a = pyStrip b := by
  unfold pyStrip
  rw [stripRight_stripLeft_comm, stripRight_stripLeft_comm, h]

end AutoSkipper

namespace AutoSkipper

/-- Unfolding: a CRLF pair ends the first line. -/
theorem pySplitlines_crlf (r : List Char) :
    pySplitlines ('\r' :: '\n' :: r) = [] :: pySplitlines r := by
  conv_lhs => rw [pySplitlines]
  simp

/-- Unfolding: a lone CR ends the first line. -/
theorem pySplitlines_cr {d : Char} (r : List Char) (hd : d ≠ '\n') :
    pySplitlines ('\r' :: d :: r) = [] :: pySplitlines (d :: r) := by
  conv_lhs => rw [pySplitlines]
  simp [hd]

/-- Unfolding: a trailing CR yields one empty line. -/
theorem pySplitlines_cr_nil : pySplitlines ['\r'] = [[]] := by
  conv_lhs => rw [pySplitlines]
  simp

/-- Unfolding: an LF ends the first line. -/
theorem pySplitlines_lf (r : List Char) :
    pySplitlines ('\n' :: r) = [] :: pySplitlines r := by
  conv_lhs => rw [pySplitlines.eq_def]
  simp

/-- Unfolding: an ordinary character extends the first line. -/
theorem pySplitlines_other {c : Char} (r : List Char)
    (h1 : c ≠ '\r') (h2 : c ≠ '\n') :
    pySplitlines (c :: r) =
      match pySplitlines r with
      | [] => [[c]]
      | l :: ls => (c :: l) :: ls := by
  conv_lhs => rw [pySplitlines.eq_def]
  simp [h1, h2]

/-- CR is whitespace. -/
theorem pyIsSpace_cr : pyIsSpace '\r' = true := rfl

/-- LF is whitespace. -/
theorem pyIsSpace_lf : pyIsSpace '\n' = true := rfl

/-- Blank lines are exactly the lines the blank filter removes. -/
theorem nonBlank_eq_false_iff (l : List Char) :
    nonBlank l = false ↔ l.all pyIsSpace = true := by
  simp [nonBlank, List.all_eq_true, List.any_eq_false]

/-- The empty line is blank. -/
theorem nonBlank_nil : nonBlank [] = false := rfl

/-- The first line of an all-whitespace text is all whitespace. -/
theorem head_all_space {l : List Char} (h : l.all pyIsSpace = true) :
    ((pySplitlines l).head?.getD []).all pyIsSpace = true := by
  induction l using pySplitlines.induct with
  | case1 => simp [pySplitlines]
  | case2 rest2 ih => rw [pySplitlines_crlf]; rfl
  | case3 d rest2 hd ih => rw [pySplitlines_cr rest2 hd]; rfl
  | case4 => rw [pySplitlines_cr_nil]; rfl
  | case5 rest hne ih => rw [pySplitlines_lf]; rfl
  | case6 c rest h1 h2 hs ih =>
    rw [pySplitlines_other rest h1 h2, hs]
    simp only [List.all_cons, Bool.and_eq_true] at h
    simp [h.1]
  | case7 c rest h1 h2 l ls hs ih =>
    rw [pySplitlines_other rest h1 h2, hs]
    simp only [List.all_cons, Bool.and_eq_true] at h
    have := ih h.2
    rw [hs] at this
    simp only [List.head?_cons, Option.getD_some] at this ⊢
    simp [h.1, this]

/-- No line survives the blank filter exactly when the text is all
whitespace. -/
theorem filter_nonBlank_nil_iff (l : List Char) :
    (pySplitlines l).filter nonBlank = [] ↔ l.all pyIsSpace = true := by
  induction l using pySplitlines.induct with
  | case1 => simp [pySplitlines]
  | case2 rest2 ih =>
    rw [pySplitlines_crlf, List.filter_cons, nonBlank_nil]
    simpa [pyIsSpace_cr, pyIsSpace_lf] using ih
  | case3 d rest2 hd ih =>
    rw [pySplitlines_cr rest2 hd, List.filter_cons, nonBlank_nil]
    simpa [pyIsSpace_cr] using ih
  | case4 =>
    rw [pySplitlines_cr_nil, List.filter_cons, nonBlank_nil]
    simp [pyIsSpace_cr]
  | case5 rest hne ih =>
    rw [pySplitlines_lf, List.filter_cons, nonBlank_nil]
    simpa [pyIsSpace_lf] using ih
  | case6 c rest h1 h2 hs ih =>
    have hrest : rest = [] := by
      rcases rest with _ | ⟨x, xs⟩
      · rfl
      · exact absurd hs (pySplitlines_ne_nil x xs)
    subst hrest
    rw [pySplitlines_other [] h1 h2, hs, List.filter_cons]
    by_cases hb : nonBlank [c]
    · have hcs : ¬pyIsSpace c = true := by
        simpa [nonBlank] using hb
      simp [hb, hcs]
    · have hcs : pyIsSpace c = true := by
        have := (nonBlank_eq_false_iff [c]).1 (by simpa using hb)
        simpa using this
      simp [hb, hcs]
  | case7 c rest h1 h2 l ls hs ih =>
    rw [pySplitlines_other rest h1 h2, hs, List.filter_cons, List.all_cons]
    rw [hs, List.filter_cons] at ih
    by_cases hcs : pyIsSpace c
    · have hnb : nonBlank (c :: l) = nonBlank l := by
        simp [nonBlank, hcs]
      rw [hnb]
      by_cases hl : nonBlank l
      · simp only [hl, reduceIte] at ih ⊢
        simp only [hcs, Bool.true_and]
        constructor
        · intro hx
          exact absurd hx (by simp)
        · intro hx
          exact absurd (ih.2 hx) (by simp)
      · simp only [hl, Bool.false_eq_true, reduceIte] at ih ⊢
        rw [ih]
        simp [hcs]
    · have hnb : nonBlank (c :: l) = true := by
        simp [nonBlank, hcs]
      simp [hnb, hcs]

end AutoSkipper

namespace AutoSkipper

/-- Convenience: dropping a leading whitespace character. -/
theorem stripLeft_cons_space {c : Char} (l : List Char)
    (hc : pyIsSpace c = true) : stripLeft (c :: l) = stripLeft l := by
  simp [stripLeft, List.dropWhile_cons, hc]

/-- Convenience: a non-whitespace head stops the left strip. -/
theorem stripLeft_cons_keep {c : Char} (l : List Char)
    (hc : ¬pyIsSpace c = true) : stripLeft (c :: l) = c :: l := by
  simp [stripLeft, List.dropWhile_cons, hc]

/-- Left-stripping the text does not change the stripped first surviving
line: the head of the lines of the left-stripped text and the first
non-blank line of the text strip to the same thing. -/
theorem head_stripLeft_eq_filter (t : List Char) :
    Option.map pyStrip ((pySplitlines (stripLeft t)).head?) =
      Option.map pyStrip (((pySplitlines t).filter nonBlank).head?) := by
  induction t using pySplitlines.induct with
  | case1 => simp [pySplitlines, stripLeft]
  | case2 rest2 ih =>
    rw [show stripLeft ('\r' :: '\n' :: rest2) = stripLeft rest2 from by
      rw [stripLeft_cons_space _ pyIsSpace_cr, stripLeft_cons_space _ pyIsSpace_lf]]
    rw [pySplitlines_crlf, List.filter_cons, nonBlank_nil]
    simpa using ih
  | case3 d rest2 hd ih =>
    rw [stripLeft_cons_space _ pyIsSpace_cr]
    rw [pySplitlines_cr rest2 hd, List.filter_cons, nonBlank_nil]
    simpa using ih
  | case4 =>
    rw [show stripLeft ['\r'] = [] from by rw [stripLeft_cons_space _ pyIsSpace_cr]; rfl]
    rw [pySplitlines_cr_nil, List.filter_cons, nonBlank_nil]
    simp [pySplitlines]
  | case5 rest hne ih =>
    rw [stripLeft_cons_space _ pyIsSpace_lf]
    rw [pySplitlines_lf, List.filter_cons, nonBlank_nil]
    simpa using ih
  | case6 c rest h1 h2 hs ih =>
    have hrest : rest = [] := by
      rcases rest with _ | ⟨x, xs⟩
      · rfl
      · exact absurd hs (pySplitlines_ne_nil x xs)
    subst hrest
    rw [pySplitlines_other [] h1 h2, hs]
    by_cases hc : pyIsSpace c
    · rw [show stripLeft [c] = [] from by rw [stripLeft_cons_space _ hc]; rfl]
      have hb : nonBlank [c] = false := by simp [nonBlank, hc]
      simp [pySplitlines, List.filter_cons, hb]
    · rw [stripLeft_cons_keep _ hc]
      have hb : nonBlank [c] = true := by simp [nonBlank, hc]
      rw [pySplitlines_other [] h1 h2, hs]
      simp [List.filter_cons, hb]
  | case7 c rest h1 h2 l ls hs ih =>
    rw [pySplitlines_other rest h1 h2, hs, List.filter_cons]
    by_cases hc : pyIsSpace c
    · rw [stripLeft_cons_space _ hc]
      have hnb : nonBlank (c :: l) = nonBlank l := by simp [nonBlank, hc]
      rw [hnb]
      rw [hs, List.filter_cons] at ih
      by_cases hl : nonBlank l
      · simp only [hl, reduceIte] at ih ⊢
        rw [ih]
        simp only [List.head?_cons, Option.map_some']
        rw [pyStrip_cons_space l hc]
      · simp only [hl, Bool.false_eq_true, reduceIte] at ih ⊢
        exact ih
    · rw [stripLeft_cons_keep _ hc]
      have hnb : nonBlank (c :: l) = true := by simp [nonBlank, hc]
      rw [pySplitlines_other rest h1 h2, hs, hnb]
      simp

end AutoSkipper

namespace AutoSkipper

/-- Right-stripping the text does not change the right-stripped first line
(provided something survives the strip). -/
theorem head_stripRight_eq (r : List Char) (h : stripRight r ≠ []) :
    stripRight ((pySplitlines (stripRight r)).head?.getD []) =
      stripRight ((pySplitlines r).head?.getD []) := by
  induction r using pySplitlines.induct with
  | case1 => exact absurd rfl h
  | case2 rest2 ih =>
    rcases ht2 : stripRight rest2 with _ | ⟨y, t2⟩
    · rw [stripRight_cons, stripRight_cons, ht2] at h
      simp [pyIsSpace_cr, pyIsSpace_lf] at h
    · rw [stripRight_cons, stripRight_cons, ht2] at h ⊢
      simp only [List.isEmpty_cons, Bool.false_eq_true, reduceIte,
        List.isEmpty_nil] at h ⊢
      rw [pySplitlines_crlf, pySplitlines_crlf]
      rfl
  | case3 d rest2 hd ih =>
    rcases ht1 : stripRight (d :: rest2) with _ | ⟨y, t1⟩
    · rw [stripRight_cons, ht1] at h
      simp [pyIsSpace_cr] at h
    · have hy : y = d := by
        have := stripRight_head (l := d :: rest2) (by rw [ht1]; simp)
        rw [ht1] at this
        simpa using this
      subst hy
      rw [stripRight_cons, ht1] at h ⊢
      simp only [List.isEmpty_cons, Bool.false_eq_true, reduceIte] at h ⊢
      rw [pySplitlines_cr t1 hd, pySplitlines_cr rest2 hd]
      rfl
  | case4 =>
    rw [show stripRight ['\r'] = [] from by
      rw [stripRight_cons]
      simp [pyIsSpace_cr, show stripRight ([] : List Char) = [] from rfl]] at h
    exact absurd rfl h
  | case5 rest hne ih =>
    rcases ht2 : stripRight rest with _ | ⟨y, t2⟩
    · rw [stripRight_cons, ht2] at h
      simp [pyIsSpace_lf] at h
    · rw [stripRight_cons, ht2] at h ⊢
      simp only [List.isEmpty_cons, Bool.false_eq_true, reduceIte] at h ⊢
      rw [pySplitlines_lf, pySplitlines_lf]
      rfl
  | case6 c rest h1 h2 hs ih =>
    have hrest : rest = [] := by
      rcases rest with _ | ⟨x, xs⟩
      · rfl
      · exact absurd hs (pySplitlines_ne_nil x xs)
    subst hrest
    rw [stripRight_cons] at h ⊢
    simp only [show stripRight ([] : List Char) = [] from rfl,
      List.isEmpty_nil, reduceIte] at h ⊢
    by_cases hc : pyIsSpace c
    · simp [hc] at h
    · simp only [hc, Bool.false_eq_true, reduceIte] at h ⊢
  | case7 c rest h1 h2 l ls hs ih =>
    rcases ht2 : stripRight rest with _ | ⟨y, t2⟩
    · have hall : rest.all pyIsSpace = true := (stripRight_eq_nil_iff rest).1 ht2
      have hl : l.all pyIsSpace = true := by
        have := head_all_space hall
        rw [hs] at this
        simpa using this
      rw [stripRight_cons, ht2] at h ⊢
      simp only [List.isEmpty_nil, reduceIte] at h ⊢
      by_cases hc : pyIsSpace c
      · simp [hc] at h
      · simp only [hc, Bool.false_eq_true, reduceIte] at h ⊢
        rw [pySplitlines_other ([] : List Char) h1 h2]
        rw [pySplitlines_other rest h1 h2, hs]
        simp only [pySplitlines, List.head?_cons, Option.getD_some]
        rw [stripRight_cons, stripRight_cons]
        rw [(stripRight_eq_nil_iff l).2 hl]
        simp [hc, show stripRight ([] : List Char) = [] from rfl]
    · rw [stripRight_cons, ht2] at h ⊢
      simp only [List.isEmpty_cons, Bool.false_eq_true, reduceIte] at h ⊢
      have hih := ih (by rw [ht2]; simp)
      rw [ht2, hs] at hih
      rcases hm : pySplitlines (y :: t2) with _ | ⟨m, ms⟩
      · exact absurd hm (pySplitlines_ne_nil y t2)
      · rw [hm] at hih
        simp only [List.head?_cons, Option.getD_some] at hih
        rw [pySplitlines_other (y :: t2) h1 h2, hm]
        rw [pySplitlines_other rest h1 h2, hs]
        simp only [List.head?_cons, Option.getD_some]
        rw [stripRight_cons, stripRight_cons, hih]

end AutoSkipper

namespace AutoSkipper

/-- The head line of the fully stripped text and the first non-blank line of
the raw text agree after stripping. -/
theorem map_strip_head_eq (t : List Char) :
    Option.map pyStrip ((pySplitlines (pyStrip t)).head?) =
      Option.map pyStrip (((pySplitlines t).filter nonBlank).head?) := by
  by_cases hz : stripRight (stripLeft t) = []
  · have hall : (stripLeft t).all pyIsSpace = true :=
      (stripRight_eq_nil_iff _).1 hz
    have hallt : t.all pyIsSpace = true := by
      rw [← all_space_stripLeft]
      exact hall
    rw [show pyStrip t = [] from hz]
    rw [(filter_nonBlank_nil_iff t).2 hallt]
    simp [pySplitlines]
  · have hL := head_stripLeft_eq_filter t
    have hR := head_stripRight_eq (stripLeft t) hz
    have hne1 : pySplitlines (stripRight (stripLeft t)) ≠ [] := by
      rcases hsr : stripRight (stripLeft t) with _ | ⟨x, xs⟩
      · exact absurd hsr hz
      · exact pySplitlines_ne_nil x xs
    have hne3 : pySplitlines (stripLeft t) ≠ [] := by
      rcases hx : stripLeft t with _ | ⟨x, xs⟩
      · exact absurd (by rw [hx]; rfl) hz
      · exact pySplitlines_ne_nil x xs
    rcases hm1 : pySplitlines (stripRight (stripLeft t)) with _ | ⟨m1, ms1⟩
    · exact absurd hm1 hne1
    rcases hm2 : pySplitlines (stripLeft t) with _ | ⟨m2, ms2⟩
    · exact absurd hm2 hne3
    rw [hm1, hm2] at hR
    simp only [List.head?_cons, Option.getD_some] at hR
    have hstrip : pyStrip m1 = pyStrip m2 := pyStrip_eq_of_stripRight_eq hR
    rw [hm2] at hL
    simp only [List.head?_cons, Option.map_some'] at hL
    rw [show pyStrip t = stripRight (stripLeft t) from rfl, hm1]
    simp only [List.head?_cons, Option.map_some']
    rw [hstrip, hL]

/-- C7 (amended): the gate permits iff the first line of the body containing
non-whitespace content, stripped of surrounding whitespace and lowercased,
equals `on`; no configured URL, a request failure, or a whitespace-only body
all report enabled. -/
theorem c7_amended_gate (urlSet : Bool) (resp : Option (List Char)) :
    is_skipping_enabled urlSet resp = gateSpecStripped urlSet resp := by
  unfold is_skipping_enabled gateSpecStripped
  cases urlSet
  · rfl
  · cases resp with
    | none => rfl
    | some text =>
      simp only [Bool.not_true, Bool.false_eq_true, reduceIte]
      have hk := map_strip_head_eq text
      rcases h1 : pySplitlines (pyStrip text) with _ | ⟨l1, ls1⟩ <;>
        rcases h2 : (pySplitlines text).filter nonBlank with _ | ⟨l2, ls2⟩
      · rfl
      · rw [h1, h2] at hk
        simp at hk
      · rw [h1, h2] at hk
        simp at hk
      · rw [h1, h2] at hk
        simp only [List.head?_cons, Option.map_some', Option.some.injEq] at hk
        dsimp only
        rw [hk]

end AutoSkipper

namespace AutoSkipper

/-- C1: for an observed new track whose history lookup returns a timezone
aware last-played timestamp, the loop issues a skip iff
`now - last_played < window` (equivalently `last_played > now - window`);
a last play exactly at `now - window` is not skipped. -/
theorem c1_skip_iff_within_window (cfg : Config) (inp : IterInput)
    (st : LoopState) (t : Track) (lp : Int)
    (hp : inp.skippingPaused = false) (hr : inp.remoteEnabled = true)
    (ht : inp.currentTrack = some t) (hv : validTrack t = true)
    (hnew : some t.id ≠ st.lastCheckedTrackId)
    (htp : st.tempPauseTrackId ≠ some t.id)
    (hl : inp.lookup = some ⟨lp, true⟩) :
    ((loopIter cfg inp st).eff.skipIssued = true ↔
        inp.now - lp < cfg.skipWindowDays * 86400) ∧
    (lp = inp.now - cfg.skipWindowDays * 86400 →
        (loopIter cfg inp st).eff.skipIssued = false) := by
  have htp2 := tempPause_update_ne st t.id htp
  have hsd : skipDecision inp.now cfg.skipWindowDays lp =
      decide (inp.now - lp < cfg.skipWindowDays * 86400) := by
    simp only [skipDecision]
    rw [decide_eq_decide]
    omega
  unfold loopIter
  rw [ht]
  simp only [hp, hr, hv, hl, Bool.not_true, Bool.not_false, if_false, if_true,
    Bool.false_eq_true, reduceIte]
  rw [if_neg hnew]
  simp only [htp2, reduceIte, hsd]
  by_cases hx : inp.now - lp < cfg.skipWindowDays * 86400
  · by_cases he : cfg.enableRestartPattern <;> simp [hx, he] <;> omega
  · by_cases he : cfg.enableRestartPattern <;> simp [hx, he, noEffects]

/-- C1 witness: a track last played 1000 seconds ago with a 60-day window is
skipped. -/
theorem c1_witness :
    (loopIter ⟨60, 120, true, 5, 2⟩
      ⟨false, true, some ⟨"t1", "Song", "Artist"⟩, some ⟨999000, true⟩, false,
        1000000⟩
      ⟨none, none, none, []⟩).eff.skipIssued = true :=
  (c1_skip_iff_within_window ⟨60, 120, true, 5, 2⟩
    ⟨false, true, some ⟨"t1", "Song", "Artist"⟩, some ⟨999000, true⟩, false,
      1000000⟩
    ⟨none, none, none, []⟩ ⟨"t1", "Song", "Artist"⟩ 999000
    rfl rfl rfl (by simp [validTrack, pyTruthyStr]) (by simp) (by simp)
    rfl).1.mpr (by norm_num)

/-- C2 witness: an absent lookup result yields no skip, and a 500-status
history response parses to absent. -/
theorem c2_witness :
    (loopIter ⟨60, 120, true, 5, 2⟩
      ⟨false, true, some ⟨"t1", "Song", "Artist"⟩, none, false, 1000000⟩
      ⟨none, none, none, []⟩).eff.skipIssued = false ∧
    get_last_play_date (.http 500 .absent) = none :=
  ⟨c2_absent_never_skips.1 _ _ _ rfl,
   c2_absent_never_skips.2.2.1 500 .absent (by norm_num)⟩

/-- C3 witness: a cached valid token is returned unchanged without refresh;
an expired one forces a refresh; a second call inside the refreshed validity
window does not refresh again. -/
theorem c3_witness :
    get_spotify_token 10 ⟨"tok2", some 3600⟩ ⟨some "tok1", 100⟩ =
      (⟨some "tok1", 100⟩, "tok1", false) ∧
    (get_spotify_token 100 ⟨"tok2", some 3600⟩ ⟨some "tok1", 100⟩).2.2 = true ∧
    (get_spotify_token 50 ⟨"tok3", none⟩
      ((get_spotify_token 10 ⟨"tok2", some 3600⟩ ⟨none, 0⟩).1)).2.2 = false :=
  ⟨c3_token_manager.1 _ 10 _ "tok1" rfl (by norm_num),
   c3_token_manager.2.1 _ 100 _ (Or.inr (by norm_num)),
   c3_token_manager.2.2 ⟨none, 0⟩ 10 50 ⟨"tok2", some 3600⟩ ⟨"tok3", none⟩
     (by norm_num [get_spotify_token, refresh_access_token])⟩

/-- C4 witness: the scenario ledger [3,4,5,4] plus a final 3 fires the
pattern with the default N = 5, tolerance = 2, and clears the ledger. -/
theorem c4_witness :
    (recordSkip 5 2 [3, 4, 5, 4] 3).2 = true ∧
    (recordSkip 5 2 [3, 4, 5, 4] 3).1 = [] :=
  ⟨((c4_pattern_detector 5 2 (by norm_num)).1 [3, 4, 5, 4] 3).mpr (by decide),
   (c4_pattern_detector 5 2 (by norm_num)).2.1 [3, 4, 5, 4] 3 (by decide)⟩

/-- C5 witness: observing the same id as last time leaves everything
unchanged and sleeps the full interval. -/
theorem c5_witness :
    loopIter ⟨60, 120, true, 5, 2⟩
      ⟨false, true, some ⟨"t1", "Song", "Artist"⟩, some ⟨999000, true⟩, false,
        1000000⟩
      ⟨some "t1", some 5, none, []⟩ =
      ⟨⟨some "t1", some 5, none, []⟩, noEffects, .sleepFull⟩ :=
  c5_dedup_noop _ _ _ ⟨"t1", "Song", "Artist"⟩ rfl rfl rfl
    (by simp [validTrack, pyTruthyStr]) rfl

/-- C8 witness: in the skip branch with playback observed paused, the
re-pause command is issued together with the skip. -/
theorem c8_witness :
    (loopIter ⟨60, 120, true, 5, 2⟩
      ⟨false, true, some ⟨"t2", "Song", "Artist"⟩, some ⟨999000, true⟩, true,
        1000000⟩
      ⟨none, none, none, []⟩).eff.skipIssued = true ∧
    (loopIter ⟨60, 120, true, 5, 2⟩
      ⟨false, true, some ⟨"t2", "Song", "Artist"⟩, some ⟨999000, true⟩, true,
        1000000⟩
      ⟨none, none, none, []⟩).eff.pauseIssued = true :=
  c8_repause_iff_observed_paused ⟨60, 120, true, 5, 2⟩
    ⟨false, true, some ⟨"t2", "Song", "Artist"⟩, some ⟨999000, true⟩, true,
      1000000⟩
    ⟨none, none, none, []⟩ ⟨"t2", "Song", "Artist"⟩ 999000
    rfl rfl rfl (by simp [validTrack, pyTruthyStr]) (by simp) (by simp) rfl
    (by norm_num)

/-- C10 witness: a 200 response with truthy fields yields a track whose
fields are non-empty and whose loop validity re-check passes. -/
theorem c10_witness :
    ("I1" : String) ≠ "" ∧ ("N1" : String) ≠ "" ∧ ("A1" : String) ≠ "" ∧
    validTrack ⟨"I1", "N1", "A1"⟩ = true :=
  c10_current_track_valid 200 (some ⟨[some "A1"], some "N1", some "I1"⟩)
    ⟨"I1", "N1", "A1"⟩ (by simp [get_current_track, pyTruthyOpt, pyTruthyStr])

end AutoSkipper
